import Mathlib

/-!
Shallow embedding of `src/backend/utils/crypto_graph_analyzer.py`
(class `CryptoGraphAnalyzer`) and verification of the claims about it.

Modelling conventions:
* Python `float` amounts/scores are modelled as `ℚ` (the constants in the
  source are short decimals, exact in `ℚ`).
* `datetime` timestamps are modelled as seconds-since-epoch naturals; the
  source only ever subtracts a minimum from a maximum, sorts timestamps,
  takes consecutive (sorted) differences and reads `.hour`, so natural
  subtraction is exact wherever it is used.
* The `networkx.DiGraph` is modelled as the list of its aggregate edges in
  edge-creation order.  `G.out_edges(w)` / `G.in_edges(w)` /
  `G.successors(w)` / `G.predecessors(w)` iterate the adjacency dicts in
  insertion order, which equals filtering the creation-ordered edge list;
  `G.nodes()` iterates nodes in insertion order, which equals the first
  appearance of each endpoint in the edge list.  For a node that is not in
  the graph, `in_edges`/`out_edges` treat the query as an nbunch and yield
  nothing, while `successors`/`predecessors`/`neighbors` raise
  `NetworkXError`; operations of the analyzer that can hit such a raise
  therefore return `Option` here, with `none` for the raise.  (The nbunch
  fallback of networkx that iterates the characters of an absent string
  node is not modelled; wallet addresses are treated as atoms.)
* Python's stable `sorted(..., key=..., reverse=True)` is modelled by a
  stable descending insertion sort on the key.
* The f-string evidence/description messages carry no logic; they are
  modelled by constant label strings (one distinct label per append site),
  with the interpolated numbers omitted.
* `nx.betweenness_centrality` and `nx.pagerank` are external library
  computations whose numeric values the repository never branches on; they
  are passed in as explicit function parameters `bw pr`, and the `.get(w, 0)`
  lookup for a wallet absent from the result dict is modelled by a node
  membership guard.  All theorems about centrality-dependent operations are
  universally quantified over these two parameters.
* The unused `self.wallet_metadata` dict is omitted.
-/

/-- One loaded transaction record as stored on an aggregate edge. -/
structure TxnRec where
  amount : ℚ
  timestamp : ℕ
  token_type : String
deriving DecidableEq, Repr

/-- Aggregate edge data for one ordered (source, dest) pair. -/
structure EdgeData where
  transactions : List TxnRec
  total_amount : ℚ
  transaction_count : ℕ
deriving DecidableEq, Repr

/-- The directed graph: aggregate edges in edge-creation order. -/
structure Graph where
  edges : List (String × String × EdgeData)
deriving DecidableEq, Repr

/-- Input record for `load_transactions`; `token_type` is optional in the
source (`txn.get("token_type", "UNKNOWN")`). -/
structure TxnInput where
  source_wallet : String
  dest_wallet : String
  amount : ℚ
  timestamp : ℕ
  token_type : Option String
deriving DecidableEq, Repr

/-- Analyzer state: the graph plus the externally supplied illicit set
(modelled as a list used only through membership, like a Python set). -/
structure Analyzer where
  graph : Graph
  illicit_wallets : List String
deriving DecidableEq, Repr

/-- `CryptoGraphAnalyzer.__init__`. -/
def emptyAnalyzer : Analyzer := ⟨⟨[]⟩, []⟩

/-- Out-edges of a wallet (`G.out_edges(w, data=True)`), in insertion order. -/
def Graph.outEdges (g : Graph) (w : String) : List (String × String × EdgeData) :=
  g.edges.filter (fun e => e.1 = w)

/-- In-edges of a wallet (`G.in_edges(w, data=True)`), in insertion order. -/
def Graph.inEdges (g : Graph) (w : String) : List (String × String × EdgeData) :=
  g.edges.filter (fun e => e.2.1 = w)

/-- Successor list (`G.successors(w)` / `G.neighbors(w)`); callers are
responsible for only using it on nodes of the graph (networkx raises
otherwise). -/
def Graph.succs (g : Graph) (w : String) : List String :=
  (g.outEdges w).map (fun e => e.2.1)

/-- Predecessor list (`G.predecessors(w)`). -/
def Graph.preds (g : Graph) (w : String) : List String :=
  (g.inEdges w).map (fun e => e.1)

/-- Append a node to an accumulator if not already present (dict insertion). -/
def addNode (acc : List String) (n : String) : List String :=
  if n ∈ acc then acc else acc ++ [n]

/-- Node list of the graph (`G.nodes()`), in insertion order: each edge
insertion adds its source and then its destination. -/
def Graph.nodeList (g : Graph) : List String :=
  g.edges.foldl (fun acc e => addNode (addNode acc e.1) e.2.1) []

/-- `len(G)`. -/
def Graph.nodeCount (g : Graph) : ℕ := g.nodeList.length

/-- Edge lookup `G[u][v]`, `none` when the edge is absent. -/
def findEdgeData : List (String × String × EdgeData) → String → String → Option EdgeData
  | [], _, _ => none
  | e :: es, s, d => if e.1 = s ∧ e.2.1 = d then some e.2.2 else findEdgeData es s d

/-- `G[u][v]` on the graph. -/
def Graph.edgeData (g : Graph) (u v : String) : Option EdgeData :=
  findEdgeData g.edges u v

/-- `G.has_edge(u, v)`. -/
def Graph.hasEdge (g : Graph) (u v : String) : Bool :=
  (g.edgeData u v).isSome

/-- `G[u][v]["total_amount"]` (0 when absent; only used on existing edges). -/
def Graph.edgeTotal (g : Graph) (u v : String) : ℚ :=
  match g.edgeData u v with
  | some d => d.total_amount
  | none => 0

/-- The stored form of one input transaction
(`{"amount": ..., "timestamp": ..., "token_type": ...}`). -/
def TxnInput.toRec (t : TxnInput) : TxnRec :=
  ⟨t.amount, t.timestamp, t.token_type.getD "UNKNOWN"⟩

/-- The body of the `load_transactions` loop for one record: upsert the
(source, dest) aggregate edge. -/
def upsertTxn (g : Graph) (t : TxnInput) : Graph :=
  let r := t.toRec
  if g.edges.any (fun e => e.1 = t.source_wallet ∧ e.2.1 = t.dest_wallet) then
    ⟨g.edges.map (fun e =>
      if e.1 = t.source_wallet ∧ e.2.1 = t.dest_wallet then
        (e.1, e.2.1,
          ⟨e.2.2.transactions ++ [r], e.2.2.total_amount + r.amount,
            e.2.2.transaction_count + 1⟩)
      else e)⟩
  else
    ⟨g.edges ++ [(t.source_wallet, t.dest_wallet, ⟨[r], r.amount, 1⟩)]⟩

/-- `load_transactions(self, transactions)`. -/
def load_transactions (a : Analyzer) (txns : List TxnInput) : Analyzer :=
  { a with graph := txns.foldl upsertTxn a.graph }

/-- `mark_illicit_wallets(self, illicit_wallet_list)`:
`self.illicit_wallets = set(illicit_wallet_list)` (the set is modelled by
the list itself; it is only ever used through membership). -/
def mark_illicit_wallets (a : Analyzer) (l : List String) : Analyzer :=
  { a with illicit_wallets := l }

/-- All stored transactions of the pair (s, d) among the inputs, in order. -/
def pairRecs (txns : List TxnInput) (s d : String) : List TxnRec :=
  (txns.filter (fun t => t.source_wallet = s ∧ t.dest_wallet = d)).map TxnInput.toRec

/-- The edges of a graph carrying the ordered pair (s, d). -/
def edgesFor (g : Graph) (s d : String) : List (String × String × EdgeData) :=
  g.edges.filter (fun e => e.1 = s ∧ e.2.1 = d)

theorem findEdgeData_append (l₁ l₂ : List (String × String × EdgeData)) (s d : String) :
    findEdgeData (l₁ ++ l₂) s d =
      match findEdgeData l₁ s d with
      | some e => some e
      | none => findEdgeData l₂ s d := by
  induction l₁ with
  | nil => simp [findEdgeData]
  | cons e es ih =>
    simp only [List.cons_append, findEdgeData]
    split
    · rfl
    · exact ih

theorem findEdgeData_map_update_other (src dst : String) (f : EdgeData → EdgeData)
    (l : List (String × String × EdgeData)) (s d : String) (h : ¬(src = s ∧ dst = d)) :
    findEdgeData
        (l.map (fun e => if e.1 = src ∧ e.2.1 = dst then (e.1, e.2.1, f e.2.2) else e)) s d
      = findEdgeData l s d := by
  induction l with
  | nil => rfl
  | cons e es ih =>
    simp only [List.map_cons]
    by_cases hc : e.1 = src ∧ e.2.1 = dst
    · rw [if_pos hc]
      have hne : ¬(e.1 = s ∧ e.2.1 = d) := fun hed =>
        h ⟨(hc.1.symm.trans hed.1), (hc.2.symm.trans hed.2)⟩
      show findEdgeData ((e.1, e.2.1, f e.2.2) :: _) s d = _
      simp only [findEdgeData, if_neg hne]
      exact ih
    · rw [if_neg hc]
      simp only [findEdgeData]
      split
      · rfl
      · exact ih

theorem findEdgeData_map_update_self (src dst : String) (f : EdgeData → EdgeData)
    (l : List (String × String × EdgeData)) :
    findEdgeData
        (l.map (fun e => if e.1 = src ∧ e.2.1 = dst then (e.1, e.2.1, f e.2.2) else e)) src dst
      = (findEdgeData l src dst).map f := by
  induction l with
  | nil => rfl
  | cons e es ih =>
    simp only [List.map_cons]
    by_cases hc : e.1 = src ∧ e.2.1 = dst
    · rw [if_pos hc]
      show findEdgeData ((e.1, e.2.1, f e.2.2) :: _) src dst = _
      simp only [findEdgeData, if_pos hc]
      rfl
    · rw [if_neg hc]
      simp only [findEdgeData, if_neg hc]
      exact ih

theorem any_eq_isSome_findEdgeData (l : List (String × String × EdgeData)) (s d : String) :
    l.any (fun e => decide (e.1 = s ∧ e.2.1 = d)) = (findEdgeData l s d).isSome := by
  induction l with
  | nil => rfl
  | cons e es ih =>
    simp only [List.any_cons, findEdgeData]
    by_cases hc : e.1 = s ∧ e.2.1 = d
    · rw [if_pos hc, decide_eq_true hc]
      simp
    · rw [if_neg hc, decide_eq_false hc]
      simp only [Bool.false_or]
      exact ih

theorem upsert_findEdgeData_self (g : Graph) (t : TxnInput) :
    findEdgeData (upsertTxn g t).edges t.source_wallet t.dest_wallet =
      some (match findEdgeData g.edges t.source_wallet t.dest_wallet with
        | none => ⟨[t.toRec], t.toRec.amount, 1⟩
        | some e => ⟨e.transactions ++ [t.toRec], e.total_amount + t.toRec.amount,
            e.transaction_count + 1⟩) := by
  unfold upsertTxn
  by_cases hany : g.edges.any
      (fun e => decide (e.1 = t.source_wallet ∧ e.2.1 = t.dest_wallet)) = true
  · rw [if_pos (by simpa using hany)]
    have hm := findEdgeData_map_update_self t.source_wallet t.dest_wallet
      (fun ed => ⟨ed.transactions ++ [t.toRec], ed.total_amount + t.toRec.amount,
        ed.transaction_count + 1⟩) g.edges
    rw [any_eq_isSome_findEdgeData] at hany
    obtain ⟨e, he⟩ := Option.isSome_iff_exists.mp hany
    show findEdgeData (g.edges.map _) t.source_wallet t.dest_wallet = _
    rw [hm, he]
    rfl
  · rw [if_neg (by simpa using hany)]
    rw [any_eq_isSome_findEdgeData] at hany
    have hnone : findEdgeData g.edges t.source_wallet t.dest_wallet = none := by
      cases h : findEdgeData g.edges t.source_wallet t.dest_wallet
      · rfl
      · rw [h] at hany; simp at hany
    show findEdgeData (g.edges ++ _) t.source_wallet t.dest_wallet = _
    rw [findEdgeData_append, hnone]
    simp [findEdgeData]

theorem upsert_findEdgeData_other (g : Graph) (t : TxnInput) (s d : String)
    (h : ¬(t.source_wallet = s ∧ t.dest_wallet = d)) :
    findEdgeData (upsertTxn g t).edges s d = findEdgeData g.edges s d := by
  unfold upsertTxn
  dsimp only
  split
  · exact findEdgeData_map_update_other t.source_wallet t.dest_wallet
      (fun ed => ⟨ed.transactions ++ [t.toRec], ed.total_amount + t.toRec.amount,
        ed.transaction_count + 1⟩) g.edges s d h
  · show findEdgeData (g.edges ++ _) s d = _
    rw [findEdgeData_append]
    cases hf : findEdgeData g.edges s d
    · simp [findEdgeData, h]
    · rfl

/-- The aggregate content of the (s, d) edge after loading `txns` on top of
graph `g`, expressed through the content before the load. -/
theorem load_findEdgeData (txns : List TxnInput) (g : Graph) (s d : String) :
    findEdgeData (txns.foldl upsertTxn g).edges s d =
      match findEdgeData g.edges s d, pairRecs txns s d with
      | none, [] => none
      | none, r :: rs => some ⟨r :: rs, (r :: rs).foldl (fun acc x => acc + x.amount) 0,
          (r :: rs).length⟩
      | some e, rs => some ⟨e.transactions ++ rs,
          rs.foldl (fun acc x => acc + x.amount) e.total_amount,
          e.transaction_count + rs.length⟩ := by
  induction txns generalizing g with
  | nil =>
    simp only [List.foldl_nil, pairRecs, List.filter_nil, List.map_nil]
    cases findEdgeData g.edges s d <;> simp
  | cons t ts ih =>
    simp only [List.foldl_cons]
    rw [ih]
    by_cases hm : t.source_wallet = s ∧ t.dest_wallet = d
    · have hsd : findEdgeData (upsertTxn g t).edges s d =
          findEdgeData (upsertTxn g t).edges t.source_wallet t.dest_wallet := by
        rw [hm.1, hm.2]
      rw [hsd, upsert_findEdgeData_self]
      have hp : pairRecs (t :: ts) s d = t.toRec :: pairRecs ts s d := by
        simp [pairRecs, List.filter_cons, hm]
      rw [hp]
      have hg : findEdgeData g.edges t.source_wallet t.dest_wallet
          = findEdgeData g.edges s d := by rw [hm.1, hm.2]
      rw [hg]
      cases hf : findEdgeData g.edges s d with
      | none =>
        cases hr : pairRecs ts s d with
        | nil => simp
        | cons r rs =>
          simp only [List.cons_append, List.nil_append, List.foldl_cons, zero_add,
            List.length_cons, Option.some.injEq, EdgeData.mk.injEq]
          exact ⟨trivial, trivial, by omega⟩
      | some e =>
        cases hr : pairRecs ts s d with
        | nil => simp
        | cons r rs =>
          simp only [List.append_assoc, List.cons_append, List.nil_append,
            List.foldl_cons, List.length_cons, Option.some.injEq, EdgeData.mk.injEq]
          exact ⟨trivial, trivial, by omega⟩
    · rw [upsert_findEdgeData_other g t s d hm]
      have hp : pairRecs (t :: ts) s d = pairRecs ts s d := by
        simp [pairRecs, List.filter_cons, hm]
      rw [hp]
      cases findEdgeData g.edges s d <;> cases pairRecs ts s d <;> simp

/-- The (source, dest) key of an edge entry. -/
def keyOf (e : String × String × EdgeData) : String × String := (e.1, e.2.1)

theorem upsert_keys (g : Graph) (t : TxnInput) :
    (upsertTxn g t).edges.map keyOf = g.edges.map keyOf ∨
      (upsertTxn g t).edges.map keyOf =
        g.edges.map keyOf ++ [(t.source_wallet, t.dest_wallet)] := by
  unfold upsertTxn
  dsimp only
  split
  · left
    rw [List.map_map]
    exact List.map_congr_left (fun e _ => by
      by_cases hc : e.1 = t.source_wallet ∧ e.2.1 = t.dest_wallet
      · simp [keyOf, hc]
      · simp [keyOf, hc])
  · right
    simp [keyOf]

theorem upsert_keys_nodup (g : Graph) (t : TxnInput)
    (h : (g.edges.map keyOf).Nodup) : ((upsertTxn g t).edges.map keyOf).Nodup := by
  rcases upsert_keys g t with hk | hk
  · rw [hk]; exact h
  · rw [hk]
    refine List.Nodup.append h (List.nodup_singleton _) ?_
    intro k hk1 hk2
    simp only [List.mem_singleton] at hk2
    subst hk2
    simp only [List.mem_map] at hk1
    obtain ⟨e, he, hkey⟩ := hk1
    have hcond : e.1 = t.source_wallet ∧ e.2.1 = t.dest_wallet := by
      constructor
      · exact congrArg Prod.fst hkey
      · exact congrArg Prod.snd hkey
    have hany : g.edges.any (fun e => e.1 = t.source_wallet ∧ e.2.1 = t.dest_wallet) := by
      refine List.any_eq_true.mpr ⟨e, he, ?_⟩
      exact decide_eq_true hcond
    unfold upsertTxn at hk
    dsimp only at hk
    rw [if_pos (by simpa using hany)] at hk
    have : (g.edges.map (fun e =>
        if e.1 = t.source_wallet ∧ e.2.1 = t.dest_wallet then
          (e.1, e.2.1,
            (⟨e.2.2.transactions ++ [t.toRec], e.2.2.total_amount + t.toRec.amount,
              e.2.2.transaction_count + 1⟩ : EdgeData))
        else e)).length = g.edges.length + 1 := by
      rw [← List.length_map _ keyOf, hk]
      simp
    simp at this

theorem load_keys_nodup (txns : List TxnInput) (g : Graph)
    (h : (g.edges.map keyOf).Nodup) :
    ((txns.foldl upsertTxn g).edges.map keyOf).Nodup := by
  induction txns generalizing g with
  | nil => exact h
  | cons t ts ih => exact ih _ (upsert_keys_nodup g t h)

theorem edgesFor_length_le_one (l : List (String × String × EdgeData)) (s d : String)
    (h : (l.map keyOf).Nodup) :
    (l.filter (fun e => e.1 = s ∧ e.2.1 = d)).length ≤ 1 := by
  induction l with
  | nil => simp
  | cons e es ih =>
    simp only [List.map_cons, List.nodup_cons] at h
    simp only [List.filter_cons]
    by_cases hc : e.1 = s ∧ e.2.1 = d
    · rw [if_pos (decide_eq_true hc)]
      have hrest : es.filter (fun e => e.1 = s ∧ e.2.1 = d) = [] := by
        rw [List.filter_eq_nil_iff]
        intro x hx hpx
        have hpx' : x.1 = s ∧ x.2.1 = d := of_decide_eq_true hpx
        refine h.1 ?_
        refine List.mem_map.mpr ⟨x, hx, ?_⟩
        simp only [keyOf]
        rw [hpx'.1, hpx'.2, ← hc.1, ← hc.2]
      rw [hrest]
      simp
    · rw [if_neg (by simpa using hc)]
      exact ih h.2

theorem foldl_add_amount (l : List TxnRec) (a : ℚ) :
    l.foldl (fun acc x => acc + x.amount) a = a + (l.map TxnRec.amount).sum := by
  induction l generalizing a with
  | nil => simp
  | cons r rs ih =>
    simp only [List.foldl_cons, List.map_cons, List.sum_cons, ih]
    ring

theorem foldl_load_batches (batches : List (List TxnInput)) (a : Analyzer) :
    batches.foldl load_transactions a = load_transactions a batches.flatten := by
  induction batches generalizing a with
  | nil =>
    show a = { a with graph := a.graph }
    rfl
  | cons b bs ih =>
    simp only [List.foldl_cons, List.flatten, ih]
    show load_transactions (load_transactions a b) bs.flatten
        = load_transactions a (b ++ bs.flatten)
    unfold load_transactions
    simp [List.foldl_append]

/-- C7: aggregate-edge content after any sequence of loads. -/
theorem claim_C7 :
    (∀ (batches : List (List TxnInput)) (s d : String),
      (edgesFor (batches.foldl load_transactions emptyAnalyzer).graph s d).length ≤ 1 ∧
      (batches.foldl load_transactions emptyAnalyzer).graph.edgeData s d =
        match pairRecs batches.flatten s d with
        | [] => none
        | r :: rs => some ⟨r :: rs, ((r :: rs).map TxnRec.amount).sum, (r :: rs).length⟩) ∧
    (load_transactions emptyAnalyzer
        [⟨"A", "B", 10, 0, none⟩, ⟨"A", "B", 5, 1, none⟩]).graph.edges =
      [("A", "B", ⟨[⟨10, 0, "UNKNOWN"⟩, ⟨5, 1, "UNKNOWN"⟩], 15, 2⟩)] := by
  constructor
  · intro batches s d
    rw [foldl_load_batches]
    constructor
    · exact edgesFor_length_le_one _ s d (load_keys_nodup batches.flatten ⟨[]⟩ (by simp))
    · show findEdgeData _ s d = _
      unfold load_transactions
      dsimp only
      rw [load_findEdgeData]
      cases pairRecs batches.flatten s d with
      | nil => rfl
      | cons r rs =>
        show some (⟨r :: rs, (r :: rs).foldl (fun acc x => acc + x.amount) 0,
            (r :: rs).length⟩ : EdgeData)
          = some ⟨r :: rs, ((r :: rs).map TxnRec.amount).sum, (r :: rs).length⟩
        rw [foldl_add_amount]
        simp
  · norm_num [load_transactions, upsertTxn, emptyAnalyzer, TxnInput.toRec, findEdgeData]

/-- C2 as frozen claims union semantics; the source instead does
`self.illicit_wallets = set(illicit_wallet_list)`, replacing the set.  With
prior set {A} and new list [B], the union would contain A but the code's
result does not. -/
theorem claim_C2_counterexample :
    "A" ∈ (mark_illicit_wallets emptyAnalyzer ["A"]).illicit_wallets ∧
      "A" ∉ (mark_illicit_wallets (mark_illicit_wallets emptyAnalyzer ["A"])
        ["B"]).illicit_wallets := by
  constructor
  · simp [mark_illicit_wallets]
  · simp [mark_illicit_wallets]

/-- C2 amended: `mark_illicit_wallets(L)` replaces the illicit set, so after
the call the set holds exactly the addresses of L (earlier marks are
discarded). -/
theorem claim_C2_amended (a : Analyzer) (l : List String) (w : String) :
    w ∈ (mark_illicit_wallets a l).illicit_wallets ↔ w ∈ l := Iff.rfl

/-- BFS level expansion: returns the distance map (node, dist) from the
start, exploring with the supplied successor function.  Fuel `nodeCount`
always suffices since every round adds at least one unvisited node. -/
def bfsDists (succFn : String → List String) :
    Nat → List (String × ℕ) → List String → ℕ → List (String × ℕ)
  | 0, visited, _, _ => visited
  | f + 1, visited, frontier, d =>
    let next := ((frontier.flatMap succFn).filter
      (fun n => !(visited.any (fun p => p.1 = n)))).foldl addNode []
    match next with
    | [] => visited
    | _ => bfsDists succFn f (visited ++ next.map (fun n => (n, d + 1))) next (d + 1)

/-- `nx.shortest_path_length(G, u, v)` (number of edges), `none` when there
is no path. -/
def shortestPathLen (g : Graph) (u v : String) : Option ℕ :=
  ((bfsDists g.succs g.nodeCount [(u, 0)] [u] 0).find? (fun p => p.1 = v)).map
    (fun p => p.2)

/-- `nx.has_path(G, u, v)` for nodes present in the graph. -/
def hasPathB (g : Graph) (u v : String) : Bool :=
  (shortestPathLen g u v).isSome

/-- Nodes reachable from u (u included), via forward edges. -/
def reachFwd (g : Graph) (u : String) : List String :=
  (bfsDists g.succs g.nodeCount [(u, 0)] [u] 0).map (fun p => p.1)

/-- Nodes that reach u (u included), i.e. reachability over reversed edges. -/
def reachBwd (g : Graph) (u : String) : List String :=
  (bfsDists g.preds g.nodeCount [(u, 0)] [u] 0).map (fun p => p.1)

/-- `nx.is_strongly_connected(G)` for a nonempty graph: some node reaches,
and is reached by, every node. -/
def isStronglyConnected (g : Graph) : Bool :=
  match g.nodeList with
  | [] => false
  | h :: _ =>
    g.nodeList.all (fun v => v ∈ reachFwd g h) &&
      g.nodeList.all (fun v => h ∈ reachFwd g v)

/-- `_distance_to_illicit_wallets(self, wallet)`: the collected candidate
distances.  For each illicit seed the source wraps both `has_path` queries in
one `try`, so a missing wallet or seed node (raising `NodeNotFound`) skips
that seed entirely; this is the membership guard below. -/
def distanceCandidates (a : Analyzer) (w : String) : List ℕ :=
  a.illicit_wallets.flatMap (fun i =>
    if w ∈ a.graph.nodeList ∧ i ∈ a.graph.nodeList then
      (match shortestPathLen a.graph w i with
        | some d => [d]
        | none => []) ++
      (match shortestPathLen a.graph i w with
        | some d => [d]
        | none => [])
    else [])

/-- `_distance_to_illicit_wallets(self, wallet)`: 0 when the wallet itself is
illicit, else the minimum collected distance, `-1` when none. -/
def distance_to_illicit (a : Analyzer) (w : String) : ℤ :=
  if w ∈ a.illicit_wallets then 0
  else
    match distanceCandidates a w with
    | [] => -1
    | d :: ds => ((ds.foldl Nat.min d : ℕ) : ℤ)

/-- Maximum of a list of naturals (used only on nonempty lists, like
Python's `max`). -/
def listMax : List ℕ → ℕ
  | [] => 0
  | t :: ts => ts.foldl Nat.max t

/-- Minimum of a list of naturals (used only on nonempty lists). -/
def listMin : List ℕ → ℕ
  | [] => 0
  | t :: ts => ts.foldl Nat.min t

/-- All transaction timestamps stored on a list of edges, in edge order. -/
def edgeTimestamps (edges : List (String × String × EdgeData)) : List ℕ :=
  edges.flatMap (fun e => e.2.2.transactions.map (fun t => t.timestamp))

/-- Centrality result struct of `calculate_wallet_centrality`. -/
structure Centrality where
  degree : ℚ
  betweenness : ℚ
  pagerank : ℚ
  closeness : ℚ
deriving DecidableEq, Repr

/-- `nx.degree_centrality(G).get(w, 0)`: degree divided by `n - 1` (networkx
returns 1 for every node when the graph has at most one node). -/
def degreeCentrality (g : Graph) (w : String) : ℚ :=
  if g.nodeCount ≤ 1 then (if w ∈ g.nodeList then 1 else 0)
  else ((g.outEdges w).length + (g.inEdges w).length : ℚ) / ((g.nodeCount : ℚ) - 1)

/-- `nx.closeness_centrality(G).get(w, 0)` with the default `wf_improved`
formula, using incoming distances: with `r` nodes able to reach `w`
(including `w`) and `tot` the sum of their distances to `w`, the value is
`((r-1)/tot) * ((r-1)/(n-1))`, and 0 when `tot = 0`. -/
def closenessCentrality (g : Graph) (w : String) : ℚ :=
  let sp := bfsDists g.preds g.nodeCount [(w, 0)] [w] 0
  let tot : ℕ := (sp.map (fun p => p.2)).sum
  let r : ℕ := sp.length
  if 0 < tot ∧ 1 < g.nodeCount then
    (((r : ℚ) - 1) / (tot : ℚ)) * (((r : ℚ) - 1) / ((g.nodeCount : ℚ) - 1))
  else 0

/-- `calculate_wallet_centrality(self, wallet)`.  The `bw`/`pr` parameters
stand for the external `nx.betweenness_centrality` / `nx.pagerank` library
computations (see the module docstring).  On the empty graph
`nx.is_strongly_connected` raises `NetworkXPointlessConcept`, so the
source's `except` branch returns the all-zero struct; a graph built only by
`load_transactions` has no other failure mode (isolated nodes cannot occur,
every node comes from an edge). -/
def calculate_wallet_centrality (bw pr : Graph → String → ℚ) (a : Analyzer)
    (w : String) : Centrality :=
  let g := a.graph
  if g.edges = [] then ⟨0, 0, 0, 0⟩
  else
    { degree := degreeCentrality g w
      betweenness := if w ∈ g.nodeList then bw g w else 0
      pagerank := if w ∈ g.nodeList then pr g w else 0
      closeness :=
        if isStronglyConnected g then
          (if w ∈ g.nodeList then closenessCentrality g w else 0)
        else 0 }

/-- The in-edges of `w` whose source is illicit (the `illicit_sources`
comprehensions of the source, kept as full edges so the paired
`total_amount` sums are the sums over these edges). -/
def illicitInEdges (a : Analyzer) (w : String) : List (String × String × EdgeData) :=
  (a.graph.inEdges w).filter (fun e => e.1 ∈ a.illicit_wallets)

/-- The illicit-connection tier of `calculate_suspicion_score` (the value
added with weight 0.5). -/
def illicit_connection_score (a : Analyzer) (w : String) : ℚ :=
  let d := distance_to_illicit a w
  if d = 0 then 1
  else if d = 1 then
    (if illicitInEdges a w ≠ [] then
      (if ((illicitInEdges a w).map (fun e => e.2.2.total_amount)).sum > 100 then 9/10
       else 7/10)
     else 1/2)
  else if d = 2 then 3/10
  else if d ≤ 3 then 15/100
  else 0

/-- `_analyze_transaction_patterns(self, wallet)`. -/
def analyze_transaction_patterns (a : Analyzer) (w : String) : ℚ :=
  let outE := a.graph.outEdges w
  let inE := a.graph.inEdges w
  let total_received := (inE.map (fun e => e.2.2.total_amount)).sum
  let total_sent := (outE.map (fun e => e.2.2.total_amount)).sum
  let smurf : ℚ :=
    if inE.length > 0 ∧ outE.length ≥ 5 then
      (if illicitInEdges a w ≠ [] then 8/10
       else if total_received > total_sent * (8/10) then
         (if total_sent / (outE.length : ℚ) < total_received / 10 then 6/10 else 0)
       else 0)
    else 0
  let fanOut : ℚ :=
    if outE.length > 10 then 3/10 else if outE.length > 5 then 15/100 else 0
  let fanIn : ℚ :=
    if inE.length > 10 then 3/10 else if inE.length > 5 then 15/100 else 0
  let roundTrip : ℚ :=
    if outE.any (fun e => a.graph.hasEdge e.2.1 w) then 2/10 else 0
  min (smurf + fanOut + fanIn + roundTrip) 1

/-- The centrality composite of `calculate_suspicion_score` (the value added
with weight 0.2). -/
def centrality_composite (bw pr : Graph → String → ℚ) (a : Analyzer)
    (w : String) : ℚ :=
  let c := calculate_wallet_centrality bw pr a w
  c.degree * (3/10) + c.betweenness * (4/10) + c.pagerank * (3/10)

/-- `calculate_suspicion_score(self, wallet)`. -/
def calculate_suspicion_score (bw pr : Graph → String → ℚ) (a : Analyzer)
    (w : String) : ℚ :=
  min (illicit_connection_score a w * (1/2)
    + centrality_composite bw pr a w * (1/5)
    + analyze_transaction_patterns a w * (3/10)) 1

/-- The numeric content of `calculate_suspicion_breakdown` (the verbatim
description strings are omitted). -/
structure Breakdown where
  total_suspicion_score : ℚ
  fan_out_score : ℚ
  fan_in_score : ℚ
  temporal_burst_score : ℚ
  path_similarity_score : ℚ
  illicit_proximity_score : ℚ
  distance_to_illicit_detail : ℤ
deriving DecidableEq, Repr

/-- `calculate_suspicion_breakdown(self, wallet)`. -/
def calculate_suspicion_breakdown (a : Analyzer) (w : String) : Breakdown :=
  let outE := a.graph.outEdges w
  let inE := a.graph.inEdges w
  let fan_out_count := outE.length
  let fos : ℚ :=
    if fan_out_count ≥ 20 then 35/100
    else if fan_out_count ≥ 10 then 25/100
    else if fan_out_count ≥ 5 then 15/100
    else 0
  let fan_in_count := inE.length
  let fis : ℚ :=
    if fan_in_count ≥ 20 then 28/100
    else if fan_in_count ≥ 10 then 20/100
    else if fan_in_count ≥ 5 then 12/100
    else 0
  let ts := edgeTimestamps (inE ++ outE)
  let tbs : ℚ :=
    if 0 < ts.length then
      (let spanH : ℚ := ((listMax ts - listMin ts : ℕ) : ℚ) / 3600
       if spanH < 24 ∧ ts.length > 10 then 17/100
       else if spanH < 48 ∧ ts.length > 15 then 12/100
       else if spanH < 168 ∧ ts.length > 25 then 8/100
       else 0)
    else 0
  let pss : ℚ :=
    if outE ≠ [] then
      (let amounts := outE.map (fun e => e.2.2.total_amount)
       let avg := amounts.sum / (amounts.length : ℚ)
       let similar := (amounts.filter (fun amt => |amt - avg| < avg * (2/10))).length
       let ratio : ℚ := (similar : ℚ) / (amounts.length : ℚ)
       if ratio > 7/10 ∧ amounts.length ≥ 5 then 1/10
       else if ratio > 1/2 ∧ amounts.length ≥ 5 then 6/100
       else 0)
    else 0
  let d := distance_to_illicit a w
  let ips : ℚ :=
    if d = 0 then 1/2
    else if d = 1 then
      (if illicitInEdges a w ≠ [] then
        (if ((illicitInEdges a w).map (fun e => e.2.2.total_amount)).sum > 100
         then 35/100 else 25/100)
       else 2/10)
    else if d = 2 then 1/10
    else if d = 3 then 5/100
    else 0
  { total_suspicion_score := min (fos + fis + tbs + pss + ips) 1
    fan_out_score := fos
    fan_in_score := fis
    temporal_burst_score := tbs
    path_similarity_score := pss
    illicit_proximity_score := ips
    distance_to_illicit_detail := d }

/-- Stable descending insertion (by a rational key): the new element goes
after all elements with a key at least as large. -/
def insertDescBy {α : Type} (key : α → ℚ) (x : α) : List α → List α
  | [] => [x]
  | y :: ys => if key y < key x then x :: y :: ys else y :: insertDescBy key x ys

/-- Stable descending sort by a rational key, the model of Python's stable
`sorted(..., key=..., reverse=True)` / `list.sort(..., reverse=True)`. -/
def sortDescBy {α : Type} (key : α → ℚ) (l : List α) : List α :=
  l.foldl (fun acc x => insertDescBy key x acc) []

/-- Ascending insertion for naturals (for `list.sort()` on timestamps). -/
def insertAsc (x : ℕ) : List ℕ → List ℕ
  | [] => [x]
  | y :: ys => if x < y then x :: y :: ys else y :: insertAsc x ys

/-- Ascending sort of timestamps. -/
def sortAsc (l : List ℕ) : List ℕ := l.foldl (fun acc x => insertAsc x acc) []

/-- Result dict shared by the four `_detect_*` pattern helpers. -/
structure PatternResult where
  type : String
  confidence : ℚ
  subtype : String
  evidence : List String
deriving DecidableEq, Repr

/-- Result of `classify_laundering_pattern`; a plain detector result is
returned with no `component_patterns` key, modelled by the empty list. -/
structure ClassifyResult where
  type : String
  confidence : ℚ
  subtype : String
  evidence : List String
  component_patterns : List PatternResult
deriving DecidableEq, Repr

/-- A detector result returned unmodified by the classifier. -/
def PatternResult.lift (p : PatternResult) : ClassifyResult :=
  ⟨p.type, p.confidence, p.subtype, p.evidence, []⟩

/-- `_detect_fan_out_fan_in_pattern(self, wallet, in_edges, out_edges)`. -/
def detect_fan_out_fan_in_pattern (a : Analyzer) (w : String) : PatternResult :=
  let inE := a.graph.inEdges w
  let outE := a.graph.outEdges w
  let in_count := inE.length
  let out_count := outE.length
  let fanPart : ℚ × List String :=
    if out_count ≥ 10 then (5/10, ["High fan-out"])
    else if out_count ≥ 5 then (3/10, ["Moderate fan-out"])
    else (0, [])
  let reaggPart : ℚ × String × List String :=
    if in_count ≥ 5 ∧ out_count ≥ 5 then
      (3/10, "MULTI_LAYER_REAGGREGATION", ["Reaggregation detected"])
    else if in_count ≥ 3 ∧ out_count ≥ 5 then
      (2/10, "COLLECTION_REDISTRIBUTION", ["Collection point"])
    else (0, "SIMPLE_FAN_OUT", [])
  let structPart : ℚ × List String :=
    if outE ≠ [] then
      (let amounts := outE.map (fun e => e.2.2.total_amount)
       let avg := amounts.sum / (amounts.length : ℚ)
       let similar := (amounts.filter (fun amt => |amt - avg| < avg * (2/10))).length
       if (similar : ℚ) / (amounts.length : ℚ) > 7/10 then (2/10, ["Structured amounts"])
       else (0, []))
    else (0, [])
  let illicitPart : ℚ × List String :=
    if illicitInEdges a w ≠ [] then (3/10, ["Direct connection to illicit wallet(s)"])
    else (0, [])
  ⟨"FAN_OUT_FAN_IN",
    min (fanPart.1 + reaggPart.1 + structPart.1 + illicitPart.1) 1,
    reaggPart.2.1,
    fanPart.2 ++ reaggPart.2.2 ++ structPart.2 ++ illicitPart.2⟩

/-- `find_chain_length(current, depth, max_depth)` inside
`_detect_peeling_pattern`: follow single-successor nodes; the fuel is
`max_depth - depth` (10 at the top call). -/
def findChainLengthAux (g : Graph) : Nat → String → Nat → Nat
  | 0, _, depth => depth
  | f + 1, cur, depth =>
    match g.succs cur with
    | [n] => findChainLengthAux g f n (depth + 1)
    | _ => depth

/-- Consecutive strict decrease by more than 10 percent, on a
descending-sorted amount list. -/
def strictlyDecreasing10 (amounts : List ℚ) : Bool :=
  (amounts.zip amounts.tail).all (fun p => p.1 > p.2 * (11/10))

/-- `_detect_peeling_pattern(self, wallet, out_edges)`. -/
def detect_peeling_pattern (a : Analyzer) (w : String) : PatternResult :=
  let outE := a.graph.outEdges w
  if outE = [] then ⟨"PEELING_CHAIN", 0, "NONE", []⟩
  else
    let chain_lengths :=
      (outE.map (fun e => findChainLengthAux a.graph 10 e.2.1 0)).filter (fun n => 0 < n)
    let chainPart : ℚ × List String :=
      match chain_lengths with
      | [] => (0, [])
      | _ =>
        let mx := listMax chain_lengths
        let lenPart : ℚ × List String :=
          if mx ≥ 5 then (6/10, ["Long transaction chain"])
          else if mx ≥ 3 then (3/10, ["Medium transaction chain"])
          else (0, [])
        let decPart : ℚ × List String :=
          if outE ≠ [] ∧ outE.length ≤ 3 then
            (let amounts := sortDescBy id (outE.map (fun e => e.2.2.total_amount))
             if amounts.length ≥ 2 ∧ strictlyDecreasing10 amounts then
               (3/10, ["Sequential peeling: decreasing amounts detected"])
             else (0, []))
          else (0, [])
        (lenPart.1 + decPart.1, lenPart.2 ++ decPart.2)
    let lowPart : ℚ × List String :=
      if outE.length ≤ 2 then (2/10, ["Linear progression"]) else (0, [])
    let conf := chainPart.1 + lowPart.1
    ⟨"PEELING_CHAIN", min conf 1,
      if conf > 1/2 then "SEQUENTIAL_PEELING" else "LINEAR_PROGRESSION",
      chainPart.2 ++ lowPart.2⟩

/-- `_detect_cyclic_pattern(self, wallet)`.  On its own this helper raises
for a wallet absent from the graph (`G.successors`); `classify` guards that
case, so this definition is only the in-graph behaviour. -/
def detect_cyclic_pattern (a : Analyzer) (w : String) : PatternResult :=
  let out_nb := a.graph.succs w
  let in_nb := a.graph.preds w
  let round_trips := out_nb.filter (fun n => n ∈ in_nb)
  let rtPart : ℚ × List String :=
    if round_trips ≠ [] then (4/10, ["Direct round-trips"]) else (0, [])
  let twoHop := out_nb.any (fun n => w ∈ a.graph.succs n)
  let thPart : ℚ × List String :=
    if twoHop then (3/10, ["2-hop cycle detected"]) else (0, [])
  let outE := a.graph.outEdges w
  let repPart : ℚ × List String :=
    if outE ≠ [] then
      (let dests := outE.map (fun e => e.2.1)
       let repeat_ratio : ℚ := 1 - ((dests.foldl addNode []).length : ℚ) / (dests.length : ℚ)
       if repeat_ratio > 1/2 then (3/10, ["Repetitive transactions"]) else (0, []))
    else (0, [])
  let cycles_found := round_trips.length + (if twoHop then 1 else 0)
  ⟨"CYCLIC_WASH", min (rtPart.1 + thPart.1 + repPart.1) 1,
    if 0 < cycles_found then "CIRCULAR_WASH" else "REPETITIVE_PATTERN",
    rtPart.2 ++ thPart.2 ++ repPart.2⟩

/-- `_detect_temporal_layering(self, wallet, in_edges, out_edges)`.  The
float comparison `std < avg * 0.2` is modelled by the equivalent
`variance < (avg * 0.2)^2` (both sides nonnegative, the deltas of an
ascending sort being nonnegative); `.hour` of an epoch timestamp is
`t / 3600 % 24`. -/
def detect_temporal_layering (a : Analyzer) (w : String) : PatternResult :=
  let inE := a.graph.inEdges w
  let outE := a.graph.outEdges w
  let ts := edgeTimestamps (inE ++ outE)
  if ts.length < 5 then ⟨"TEMPORAL_LAYERING", 0, "INSUFFICIENT_DATA", []⟩
  else
    let sorted := sortAsc ts
    let deltas : List ℚ := (sorted.zip sorted.tail).map (fun p => ((p.2 - p.1 : ℕ) : ℚ))
    if deltas = [] then ⟨"TEMPORAL_LAYERING", 0, "NONE", []⟩
    else
      let avg := deltas.sum / (deltas.length : ℚ)
      let spanH : ℚ := ((listMax ts - listMin ts : ℕ) : ℚ) / 3600
      let burstPart : ℚ × List String :=
        if spanH < 24 ∧ ts.length > 10 then (4/10, ["Rapid layering"]) else (0, [])
      let variance := (deltas.map (fun x => (x - avg) ^ 2)).sum / (deltas.length : ℚ)
      let lowVar := variance < (avg * (2/10)) ^ 2
      let autoPart : ℚ × List String :=
        if lowVar ∧ deltas.length > 5 then (3/10, ["Automated timing"]) else (0, [])
      let offHours := (ts.filter (fun t => 2 ≤ t / 3600 % 24 ∧ t / 3600 % 24 < 5)).length
      let offPart : ℚ × List String :=
        if (offHours : ℚ) / (ts.length : ℚ) > 3/10 then (2/10, ["Off-hours activity"])
        else (0, [])
      ⟨"TEMPORAL_LAYERING", min (burstPart.1 + autoPart.1 + offPart.1) 1,
        if spanH < 6 then "RAPID_BURST"
        else if lowVar then "AUTOMATED_TIMING"
        else "DISTRIBUTED_LAYERING",
        burstPart.2 ++ autoPart.2 ++ offPart.2⟩

/-- `classify_laundering_pattern(self, wallet)`.  For a wallet absent from
the graph, `_detect_cyclic_pattern`'s `G.successors(wallet)` raises
`NetworkXError`, hence `none`. -/
def classify_laundering_pattern (a : Analyzer) (w : String) : Option ClassifyResult :=
  if w ∈ a.graph.nodeList then
    some
      (let fan := detect_fan_out_fan_in_pattern a w
       let peel := detect_peeling_pattern a w
       let cyc := detect_cyclic_pattern a w
       let temp := detect_temporal_layering a w
       let patterns :=
         (if fan.confidence > 3/10 then [fan] else []) ++
         (if peel.confidence > 3/10 then [peel] else []) ++
         (if cyc.confidence > 3/10 then [cyc] else []) ++
         (if temp.confidence > 3/10 then [temp] else [])
       match sortDescBy PatternResult.confidence patterns with
       | [] => ⟨"NORMAL_ACTIVITY", 0, "NO_SUSPICIOUS_PATTERN", [], []⟩
       | [p] => p.lift
       | p0 :: p1 :: _ =>
         if p1.confidence > 1/2 then
           ⟨"MIXED_STRATEGY", min (p0.confidence + p1.confidence * (3/10)) 1,
             p0.type ++ "_" ++ p1.type, p0.evidence ++ p1.evidence, [p0, p1]⟩
         else p0.lift)
  else none

/-- The classifier merge step as worded by the spec (§4.5), for the C6
refinement: retain detector results with confidence above 0.3; none →
`NORMAL_ACTIVITY` at confidence 0; at least two retained with the
second-ranked above 0.5 → `MIXED_STRATEGY` with the blended confidence,
concatenated subtype, both evidence lists and both component results;
otherwise the top result unmodified. -/
def classifySpecMerge (results : List PatternResult) : ClassifyResult :=
  let retained := results.filter (fun p => p.confidence > 3/10)
  match sortDescBy PatternResult.confidence retained with
  | [] => ⟨"NORMAL_ACTIVITY", 0, "NO_SUSPICIOUS_PATTERN", [], []⟩
  | [p] => p.lift
  | p0 :: p1 :: _ =>
    if p1.confidence > 1/2 then
      ⟨"MIXED_STRATEGY", min (p0.confidence + p1.confidence * (3/10)) 1,
        p0.type ++ "_" ++ p1.type, p0.evidence ++ p1.evidence, [p0, p1]⟩
    else p0.lift

/-- The result dict of `get_wallet_summary`. -/
structure Summary where
  wallet_address : String
  suspicion_score : ℚ
  centrality : Centrality
  total_received : ℚ
  total_sent : ℚ
  unique_senders : ℕ
  unique_receivers : ℕ
  is_illicit : Bool
  distance_to_illicit : ℤ
deriving DecidableEq, Repr

/-- `get_wallet_summary(self, wallet)`.  For a wallet absent from the graph
`G.predecessors(wallet)` raises `NetworkXError`, hence `none`. -/
def get_wallet_summary (bw pr : Graph → String → ℚ) (a : Analyzer)
    (w : String) : Option Summary :=
  if w ∈ a.graph.nodeList then
    some
      { wallet_address := w
        suspicion_score := calculate_suspicion_score bw pr a w
        centrality := calculate_wallet_centrality bw pr a w
        total_received := ((a.graph.inEdges w).map (fun e => e.2.2.total_amount)).sum
        total_sent := ((a.graph.outEdges w).map (fun e => e.2.2.total_amount)).sum
        unique_senders := (a.graph.preds w).length
        unique_receivers := (a.graph.succs w).length
        is_illicit := decide (w ∈ a.illicit_wallets)
        distance_to_illicit := distance_to_illicit a w }
  else none

/-- `_analyze_pattern(self, path)` result dict. -/
structure PatternInfo where
  suspicion_score : ℚ
  total_amount : ℚ
  transaction_count : ℕ
  path_length : ℕ
  time_span_hours : ℚ
deriving DecidableEq, Repr

/-- `_analyze_pattern(self, path)`: aggregate the consecutive edges of the
path.  The source accumulates `[min, max]` over each edge's timestamps; the
overall min/max over all of them is the same value. -/
def analyze_pattern (g : Graph) (path : List String) : PatternInfo :=
  let pairs := path.zip path.tail
  let total_amount : ℚ := (pairs.map (fun p => g.edgeTotal p.1 p.2)).sum
  let transaction_count : ℕ := (pairs.map (fun p =>
    match g.edgeData p.1 p.2 with
    | some d => d.transaction_count
    | none => 0)).sum
  let ts := pairs.flatMap (fun p =>
    match g.edgeData p.1 p.2 with
    | some d => d.transactions.map (fun t => t.timestamp)
    | none => [])
  let lenPart : ℚ := if path.length ≥ 5 then 3/10 else if path.length ≥ 3 then 2/10 else 0
  let amtPart : ℚ := if total_amount > 10000 ∧ path.length ≥ 3 then 3/10 else 0
  let cntPart : ℚ := if transaction_count > 20 then 2/10 else 0
  let durH : ℚ := ((listMax ts - listMin ts : ℕ) : ℚ) / 3600
  let timePart : ℚ := if ts ≠ [] ∧ durH < 24 then 2/10 else 0
  ⟨min (lenPart + amtPart + cntPart + timePart) 1, total_amount, transaction_count,
    path.length, if ts ≠ [] then durH else 0⟩

/-- DFS enumeration behind `nx.all_simple_paths(G, src, target, cutoff)`:
suffixes of simple paths from `cur`, avoiding `visited`, with at most `fuel`
further edges (`cutoff` bounds the number of edges of a path). -/
def simplePathsAux (g : Graph) (target : String) :
    Nat → String → List String → List (List String)
  | 0, _, _ => []
  | f + 1, cur, visited =>
    (g.succs cur).flatMap (fun n =>
      if n = target then [[target]]
      else if n ∈ visited then []
      else (simplePathsAux g target f n (n :: visited)).map (fun p => n :: p))

/-- `nx.all_simple_paths(G, src, target, cutoff)` (as a list; enumeration
order may differ from networkx's, which is irrelevant after the final
sort).  For `src` absent from the graph networkx raises `NodeNotFound`,
which the source catches and turns into no paths; here `succs` of an absent
node is already empty. -/
def allSimplePaths (g : Graph) (src target : String) (cutoff : Nat) : List (List String) :=
  (simplePathsAux g target cutoff src [src]).map (fun p => src :: p)

/-- The metrics sub-dict of a smurfing record; `fan_out_count` only exists
on direct records (the duplicated `suspicion_score` key of multi-hop
metrics is dropped, it equals the record's score). -/
structure SmurfMetrics where
  total_amount : ℚ
  transaction_count : ℕ
  path_length : ℕ
  fan_out_count : Option ℕ
  time_span_hours : ℚ
deriving DecidableEq, Repr

/-- One entry of the `detect_fan_out_fan_in` result list.  The direct
record's keys `intermediary`/`destinations` and the multi-hop record's key
`destination` are optional fields (`none` models an absent dict key;
`destinations := []` likewise on multi-hop records).  `intermediaries` is
`list(set(path[1:-1]))`; on a simple path those nodes are already distinct,
so the inner-node list itself is used. -/
structure SmurfRecord where
  source : String
  intermediary : Option String
  destination : Option String
  destinations : List String
  path : List String
  intermediaries : List String
  suspicion_score : ℚ
  pattern_type : String
  metrics : SmurfMetrics
deriving DecidableEq, Repr

/-- The shortcut branch of `detect_fan_out_fan_in`: one high-confidence
record when the wallet has any inbound edge from an illicit wallet and
out-degree at least 5 (`illicit_sources[0]` is the first illicit in-edge
source). -/
def directSmurfRecords (a : Analyzer) (w : String) : List SmurfRecord :=
  let inE := a.graph.inEdges w
  let outE := a.graph.outEdges w
  if 0 < inE.length ∧ 5 ≤ outE.length then
    match illicitInEdges a w with
    | [] => []
    | ie :: ies =>
      let total_received := ((ie :: ies).map (fun e => e.2.2.total_amount)).sum
      let dests := outE.map (fun e => e.2.1)
      let ts := edgeTimestamps (ie :: ies) ++ edgeTimestamps outE
      let spanH : ℚ :=
        if ts ≠ [] then ((listMax ts - listMin ts : ℕ) : ℚ) / 3600 else 0
      [{ source := ie.1
         intermediary := some w
         destination := none
         destinations := dests
         path := [ie.1, w] ++ dests
         intermediaries := [w]
         suspicion_score := if 10 < outE.length then 95/100 else 9/10
         pattern_type := "direct_smurfing_from_illicit"
         metrics := ⟨total_received, (outE.map (fun e => e.2.2.transaction_count)).sum,
           2, some outE.length, spanH⟩ }]
  else []

/-- The general branch of `detect_fan_out_fan_in`: bounded simple-path
enumeration over every other node as target. -/
def multiHopRecords (a : Analyzer) (w : String)
    (max_depth min_intermediaries : Nat) : List SmurfRecord :=
  a.graph.nodeList.flatMap (fun target =>
    if target = w then []
    else
      (allSimplePaths a.graph w target max_depth).filterMap (fun path =>
        if path.length < 3 then none
        else
          let inter := (path.drop 1).dropLast
          if min_intermediaries ≤ inter.length then
            let info := analyze_pattern a.graph path
            if info.suspicion_score > 1/2 then
              some { source := w, intermediary := none, destination := some target,
                     destinations := [], path := path, intermediaries := inter,
                     suspicion_score := info.suspicion_score,
                     pattern_type := "multi_hop_smurfing",
                     metrics := ⟨info.total_amount, info.transaction_count,
                       info.path_length, none, info.time_span_hours⟩ }
            else none
          else none))

/-- `detect_fan_out_fan_in(self, wallet, max_depth, min_intermediaries)`
(source defaults: `max_depth=3`, `min_intermediaries=3`): the shortcut
records, then the multi-hop records, sorted descending by score. -/
def detect_fan_out_fan_in (a : Analyzer) (w : String)
    (max_depth min_intermediaries : Nat) : List SmurfRecord :=
  sortDescBy SmurfRecord.suspicion_score
    (directSmurfRecords a w ++ multiHopRecords a w max_depth min_intermediaries)

/-- One entry of the `detect_peeling_chain` result list. -/
structure PeelChain where
  source : String
  chain : List String
  amounts : List ℚ
  total_peeled : ℚ
  suspicion_score : ℚ
deriving DecidableEq, Repr

/-- `_is_peeling_pattern(self, amounts)`. -/
def is_peeling_pattern (amounts : List ℚ) : Bool :=
  if amounts.length < 3 then false
  else
    let dec := ((amounts.zip amounts.tail).filter (fun p => p.2 < p.1 * (95/100))).length
    decide ((dec : ℚ) ≥ (amounts.length : ℚ) * (7/10))

/-- `_calculate_peeling_score(self, amounts)`. -/
def calculate_peeling_score (amounts : List ℚ) : ℚ :=
  match amounts with
  | [] => 0
  | a0 :: rest =>
    let la := rest.getLast?.getD a0
    let lenB : ℚ :=
      if (a0 :: rest).length ≥ 10 then 4/10
      else if (a0 :: rest).length ≥ 5 then 2/10
      else 0
    let peel_pct : ℚ := if a0 > 0 then (a0 - la) / a0 else 0
    let peelB : ℚ := if 1/10 < peel_pct ∧ peel_pct < 1/2 then 3/10 else 0
    let bigB : ℚ := if a0 > 10000 then 3/10 else 0
    min (lenB + peelB + bigB) 1

/-- `sum(amounts) - amounts[-1] if amounts else 0`. -/
def totalPeeled (amounts : List ℚ) : ℚ :=
  match amounts with
  | [] => 0
  | a0 :: rest => (a0 :: rest).sum - rest.getLast?.getD a0

/-- The BFS loop of `detect_peeling_chain`.  The queue holds
`(current, path, amounts)` frames; `visited` is the GLOBAL visited set of
the source (`if current in visited and len(path) > 1: continue`), while the
per-path `if neighbor not in path` check only forbids cycles inside one
path.  The `fuel` argument and the returned flag are modelling artifacts for
termination: the flag is `true` exactly when the queue emptied before the
fuel ran out, in which case (see `peelBfs_fuel_irrelevant`) the result is
the fuel-independent value of the source's unbounded loop. -/
def peelBfs (g : Graph) (w : String) (min_hops : Nat) :
    Nat → List (String × List String × List ℚ) → List String → List PeelChain →
      List PeelChain × Bool
  | _, [], _, acc => (acc, true)
  | 0, _ :: _, _, acc => (acc, false)
  | f + 1, (cur, path, amounts) :: rest, visited, acc =>
    if cur ∈ visited ∧ 1 < path.length then
      peelBfs g w min_hops f rest visited acc
    else
      let visited' := addNode visited cur
      let acc' :=
        if min_hops ≤ path.length ∧ is_peeling_pattern amounts then
          acc ++ [⟨w, path, amounts, totalPeeled amounts, calculate_peeling_score amounts⟩]
        else acc
      let pushes := (g.succs cur).filterMap (fun nb =>
        if nb ∈ path then none
        else some (nb, path ++ [nb], amounts ++ [g.edgeTotal cur nb]))
      peelBfs g w min_hops f (rest ++ pushes) visited' acc'

/-- Fuel bound for the peeling BFS: every queued frame carries a
node-distinct path starting at the wallet and all such paths are pairwise
distinct, so the number of pops is at most the number of simple paths,
which is below `(n+1)^(n+1)`. -/
def peelFuel (g : Graph) : Nat := (g.nodeCount + 1) ^ (g.nodeCount + 1)

/-- `detect_peeling_chain(self, wallet, min_hops)` (source default
`min_hops=5`).  For a wallet absent from the graph the first
`G.neighbors(wallet)` raises `NetworkXError`, hence `none`. -/
def detect_peeling_chain (a : Analyzer) (w : String) (min_hops : Nat) :
    Option (List PeelChain) :=
  if w ∈ a.graph.nodeList then
    some (sortDescBy PeelChain.suspicion_score
      (peelBfs a.graph w min_hops (peelFuel a.graph) [(w, [w], [])] [] []).1)
  else none

/-- Once the BFS queue empties within the given fuel, any larger fuel
produces the same outcome: the fuel is an invisible artifact on every run
that terminates naturally. -/
theorem peelBfs_fuel_irrelevant (g : Graph) (w : String) (mh : Nat) :
    ∀ (f f' : Nat) (q : List (String × List String × List ℚ)) (v : List String)
      (acc : List PeelChain), f ≤ f' → (peelBfs g w mh f q v acc).2 = true →
      peelBfs g w mh f' q v acc = peelBfs g w mh f q v acc := by
  intro f
  induction f with
  | zero =>
    intro f' q v acc _ hflag
    cases q with
    | nil => cases f' <;> rfl
    | cons x rest => simp [peelBfs] at hflag
  | succ k ih =>
    intro f' q v acc hle hflag
    cases q with
    | nil => cases f' <;> rfl
    | cons x rest =>
      obtain ⟨c, p, am⟩ := x
      match f', hle with
      | k' + 1, hle =>
        have hk : k ≤ k' := Nat.succ_le_succ_iff.mp hle
        by_cases hskip : c ∈ v ∧ 1 < p.length
        · rw [peelBfs, if_pos hskip] at hflag ⊢
          rw [peelBfs, if_pos hskip]
          exact ih k' _ _ _ hk hflag
        · rw [peelBfs, if_neg hskip] at hflag ⊢
          rw [peelBfs, if_neg hskip]
          exact ih k' _ _ _ hk hflag

/-- C8: every breakdown component is nonnegative and within its documented
bound (fan_out 0.35, fan_in 0.28, temporal 0.17, path_similarity 0.10,
illicit_proximity 0.50), and the total is the component sum capped at 1. -/
theorem claim_C8 (a : Analyzer) (w : String) :
    0 ≤ (calculate_suspicion_breakdown a w).fan_out_score ∧
    (calculate_suspicion_breakdown a w).fan_out_score ≤ 35/100 ∧
    0 ≤ (calculate_suspicion_breakdown a w).fan_in_score ∧
    (calculate_suspicion_breakdown a w).fan_in_score ≤ 28/100 ∧
    0 ≤ (calculate_suspicion_breakdown a w).temporal_burst_score ∧
    (calculate_suspicion_breakdown a w).temporal_burst_score ≤ 17/100 ∧
    0 ≤ (calculate_suspicion_breakdown a w).path_similarity_score ∧
    (calculate_suspicion_breakdown a w).path_similarity_score ≤ 1/10 ∧
    0 ≤ (calculate_suspicion_breakdown a w).illicit_proximity_score ∧
    (calculate_suspicion_breakdown a w).illicit_proximity_score ≤ 1/2 ∧
    (calculate_suspicion_breakdown a w).total_suspicion_score =
      min ((calculate_suspicion_breakdown a w).fan_out_score
        + (calculate_suspicion_breakdown a w).fan_in_score
        + (calculate_suspicion_breakdown a w).temporal_burst_score
        + (calculate_suspicion_breakdown a w).path_similarity_score
        + (calculate_suspicion_breakdown a w).illicit_proximity_score) 1 := by
  unfold calculate_suspicion_breakdown
  dsimp only
  refine ⟨?_, ?_, ?_, ?_, ?_, ?_, ?_, ?_, ?_, ?_, rfl⟩ <;>
    split_ifs <;> norm_num

/-- C10: with the unreachable sentinel `-1`, the scalar score's
illicit-connection tier is still 0.15 (the sentinel satisfies the
`distance <= 3` branch), contributing `0.15 * 0.5 = 0.075` to the scalar
score, while the breakdown's illicit-proximity component is 0 for the same
wallet. -/
theorem claim_C10 (bw pr : Graph → String → ℚ) (a : Analyzer) (w : String)
    (h : distance_to_illicit a w = -1) :
    illicit_connection_score a w = 15/100 ∧
    (calculate_suspicion_breakdown a w).illicit_proximity_score = 0 ∧
    calculate_suspicion_score bw pr a w =
      min ((15/100) * (1/2) + centrality_composite bw pr a w * (1/5)
        + analyze_transaction_patterns a w * (3/10)) 1 := by
  have h1 : illicit_connection_score a w = 15/100 := by
    unfold illicit_connection_score
    rw [h]
    norm_num
  refine ⟨h1, ?_, ?_⟩
  · unfold calculate_suspicion_breakdown
    dsimp only
    rw [h]
    norm_num
  · unfold calculate_suspicion_score
    rw [h1]

/-- The zero function standing in for the external betweenness / pagerank
computations in concrete witnesses. -/
def zeroLib : Graph → String → ℚ := fun _ _ => 0

/-- Concrete analyzer for the C10 witness: one edge A→B, one illicit seed X
that is not a node of the graph, so A has no path to or from any illicit
wallet and the distance is the sentinel. -/
def analyzerC10 : Analyzer :=
  mark_illicit_wallets (load_transactions emptyAnalyzer
    [⟨"A", "B", 10, 0, none⟩]) ["X"]

theorem claim_C10_witness :
    distance_to_illicit analyzerC10 "A" = -1 ∧
    (illicit_connection_score analyzerC10 "A" = 15/100 ∧
      (calculate_suspicion_breakdown analyzerC10 "A").illicit_proximity_score = 0 ∧
      calculate_suspicion_score zeroLib zeroLib analyzerC10 "A" =
        min ((15/100) * (1/2) + centrality_composite zeroLib zeroLib analyzerC10 "A" * (1/5)
          + analyze_transaction_patterns analyzerC10 "A" * (3/10)) 1) := by
  have h : distance_to_illicit analyzerC10 "A" = -1 := by
    simp +decide [distance_to_illicit, distanceCandidates, analyzerC10, mark_illicit_wallets,
      load_transactions, emptyAnalyzer, upsertTxn, Graph.nodeList, addNode, List.flatMap]
  exact ⟨h, claim_C10 zeroLib zeroLib analyzerC10 "A" h⟩

theorem mem_addNode_self (acc : List String) (n : String) : n ∈ addNode acc n := by
  unfold addNode
  split
  · assumption
  · simp

theorem mem_addNode_of_mem {acc : List String} {x : String} (n : String)
    (h : x ∈ acc) : x ∈ addNode acc n := by
  unfold addNode
  split
  · exact h
  · simp [h]

theorem mem_foldl_addNode (l : List (String × String × EdgeData)) :
    ∀ (acc : List String) (x : String), x ∈ acc →
      x ∈ l.foldl (fun acc e => addNode (addNode acc e.1) e.2.1) acc := by
  induction l with
  | nil => intro acc x h; exact h
  | cons f fs ih =>
    intro acc x h
    exact ih _ x (mem_addNode_of_mem _ (mem_addNode_of_mem _ h))

theorem endpoints_mem_nodeList (g : Graph) (e : String × String × EdgeData)
    (h : e ∈ g.edges) : e.1 ∈ g.nodeList ∧ e.2.1 ∈ g.nodeList := by
  unfold Graph.nodeList
  suffices hgen : ∀ (l : List (String × String × EdgeData)) (acc : List String),
      e ∈ l → e.1 ∈ l.foldl (fun acc e => addNode (addNode acc e.1) e.2.1) acc ∧
        e.2.1 ∈ l.foldl (fun acc e => addNode (addNode acc e.1) e.2.1) acc by
    exact hgen g.edges [] h
  intro l
  induction l with
  | nil => intro acc h; simp at h
  | cons f fs ih =>
    intro acc h
    rcases List.mem_cons.mp h with heq | hmem
    · subst heq
      constructor
      · exact mem_foldl_addNode fs _ _
          (mem_addNode_of_mem _ (mem_addNode_self acc e.1))
      · exact mem_foldl_addNode fs _ _ (mem_addNode_self _ e.2.1)
    · exact ih _ hmem

theorem outEdges_eq_nil_of_not_mem (g : Graph) (w : String)
    (h : w ∉ g.nodeList) : g.outEdges w = [] := by
  unfold Graph.outEdges
  rw [List.filter_eq_nil_iff]
  intro e he hp
  have : e.1 = w := by simpa using hp
  exact h (this ▸ (endpoints_mem_nodeList g e he).1)

theorem inEdges_eq_nil_of_not_mem (g : Graph) (w : String)
    (h : w ∉ g.nodeList) : g.inEdges w = [] := by
  unfold Graph.inEdges
  rw [List.filter_eq_nil_iff]
  intro e he hp
  have : e.2.1 = w := by simpa using hp
  exact h (this ▸ (endpoints_mem_nodeList g e he).2)

/-- Graph for the C5 counterexample: the wallets A and B form a strongly
connected component, while the separate edge C→D keeps the whole graph from
being strongly connected. -/
def graphC5 : Graph :=
  (load_transactions emptyAnalyzer
    [⟨"A", "B", 1, 0, none⟩, ⟨"B", "A", 1, 0, none⟩, ⟨"C", "D", 1, 0, none⟩]).graph

/-- Analyzer wrapping `graphC5` (no illicit wallets). -/
def analyzerC5 : Analyzer := ⟨graphC5, []⟩

/-- C5 as frozen claims that a wallet lying in a strongly connected
component receives its closeness centrality even when other parts of the
graph are not strongly connected.  In the code the guard is the global
`nx.is_strongly_connected(self.graph)`: wallet A sits in the strongly
connected component {A, B} (mutual reachability shown), its closeness
centrality is 1/3 ≠ 0, yet the operation returns closeness 0 because the
whole graph is not strongly connected. -/
theorem claim_C5_counterexample :
    hasPathB graphC5 "A" "B" = true ∧ hasPathB graphC5 "B" "A" = true ∧
    isStronglyConnected graphC5 = false ∧
    (calculate_wallet_centrality zeroLib zeroLib analyzerC5 "A").closeness = 0 ∧
    closenessCentrality graphC5 "A" = 1/3 := by
  refine ⟨by decide, by decide, by decide, ?_, ?_⟩
  · simp +decide [calculate_wallet_centrality, analyzerC5, graphC5, load_transactions,
      emptyAnalyzer, upsertTxn, isStronglyConnected, Graph.nodeList, addNode, reachFwd,
      bfsDists, Graph.succs, Graph.outEdges]
  · simp +decide [closenessCentrality, graphC5, load_transactions, emptyAnalyzer,
      upsertTxn, bfsDists, Graph.preds, Graph.inEdges, Graph.nodeList, Graph.nodeCount,
      addNode]
    all_goals norm_num

/-- C5 amended: the returned closeness is the wallet's closeness centrality
only when the whole graph is strongly connected, and 0 otherwise; on the
empty graph (where `nx.is_strongly_connected` raises and the `except`
branch fires) the whole struct is all-zero. -/
theorem claim_C5_amended (bw pr : Graph → String → ℚ) (a : Analyzer) (w : String) :
    (a.graph.edges = [] → calculate_wallet_centrality bw pr a w = ⟨0, 0, 0, 0⟩) ∧
    (isStronglyConnected a.graph = false →
      (calculate_wallet_centrality bw pr a w).closeness = 0) ∧
    (isStronglyConnected a.graph = true → w ∈ a.graph.nodeList →
      (calculate_wallet_centrality bw pr a w).closeness = closenessCentrality a.graph w) := by
  refine ⟨?_, ?_, ?_⟩
  · intro hE
    unfold calculate_wallet_centrality
    rw [if_pos hE]
  · intro hSC
    unfold calculate_wallet_centrality
    by_cases hE : a.graph.edges = []
    · rw [if_pos hE]
    · rw [if_neg hE]
      simp [hSC]
  · intro hSC hmem
    have hE : a.graph.edges ≠ [] := by
      intro hE
      have hnl : a.graph.nodeList = [] := by
        unfold Graph.nodeList
        rw [hE]
        rfl
      unfold isStronglyConnected at hSC
      rw [hnl] at hSC
      simp at hSC
    unfold calculate_wallet_centrality
    rw [if_neg hE]
    simp [hSC, hmem]

/-- Two-node strongly connected graph for the C5 witness. -/
def graphSC : Graph :=
  (load_transactions emptyAnalyzer
    [⟨"A", "B", 1, 0, none⟩, ⟨"B", "A", 1, 0, none⟩]).graph

/-- Analyzer wrapping `graphSC`. -/
def analyzerSC : Analyzer := ⟨graphSC, []⟩

theorem claim_C5_witness :
    (emptyAnalyzer.graph.edges = [] ∧
      calculate_wallet_centrality zeroLib zeroLib emptyAnalyzer "A" = ⟨0, 0, 0, 0⟩) ∧
    (isStronglyConnected graphC5 = false ∧
      (calculate_wallet_centrality zeroLib zeroLib analyzerC5 "A").closeness = 0) ∧
    (isStronglyConnected graphSC = true ∧ "A" ∈ graphSC.nodeList ∧
      (calculate_wallet_centrality zeroLib zeroLib analyzerSC "A").closeness =
        closenessCentrality graphSC "A") :=
  ⟨⟨rfl, (claim_C5_amended zeroLib zeroLib emptyAnalyzer "A").1 rfl⟩,
   ⟨by decide, (claim_C5_amended zeroLib zeroLib analyzerC5 "A").2.1 (by decide)⟩,
   ⟨by decide, by decide,
     (claim_C5_amended zeroLib zeroLib analyzerSC "A").2.2 (by decide) (by decide)⟩⟩

/-- C1 as frozen claims every analysis operation returns a defined
zero/neutral result for a wallet absent from the graph.  In the code
`get_wallet_summary` calls `G.predecessors(wallet)`, which raises
`NetworkXError` for an absent node (modelled by `none`): on the graph with
single edge A→B the absent wallet Z makes the operation raise instead of
returning a result. -/
theorem claim_C1_counterexample :
    "Z" ∉ analyzerC10.graph.nodeList ∧
      get_wallet_summary zeroLib zeroLib analyzerC10 "Z" = none := by
  constructor
  · decide
  · rfl

/-- C1 amended: for a wallet absent from the graph (and not flagged
illicit), `calculate_wallet_centrality`, `calculate_suspicion_breakdown`,
`calculate_suspicion_score` and `detect_fan_out_fan_in` are total —
centrality all-zero, breakdown all-zero with sentinel distance −1,
scalar score 0.075 (the sentinel tier contribution), no smurfing patterns
— while `get_wallet_summary`, `classify_laundering_pattern` and
`detect_peeling_chain` raise (`none`). -/
theorem claim_C1_amended (bw pr : Graph → String → ℚ) (a : Analyzer) (w : String)
    (dep mi mh : Nat) (hmem : w ∉ a.graph.nodeList) (hill : w ∉ a.illicit_wallets) :
    calculate_wallet_centrality bw pr a w = ⟨0, 0, 0, 0⟩ ∧
    calculate_suspicion_breakdown a w = ⟨0, 0, 0, 0, 0, 0, -1⟩ ∧
    calculate_suspicion_score bw pr a w = 3/40 ∧
    detect_fan_out_fan_in a w dep mi = [] ∧
    get_wallet_summary bw pr a w = none ∧
    classify_laundering_pattern a w = none ∧
    detect_peeling_chain a w mh = none := by
  have hout : a.graph.outEdges w = [] := outEdges_eq_nil_of_not_mem _ _ hmem
  have hin : a.graph.inEdges w = [] := inEdges_eq_nil_of_not_mem _ _ hmem
  have hcand : distanceCandidates a w = [] := by
    unfold distanceCandidates
    refine List.flatMap_eq_nil_iff.mpr ?_
    intro i _
    rw [if_neg]
    exact fun hc => hmem hc.1
  have hdist : distance_to_illicit a w = -1 := by
    unfold distance_to_illicit
    rw [if_neg hill, hcand]
  have hcent : calculate_wallet_centrality bw pr a w = ⟨0, 0, 0, 0⟩ := by
    unfold calculate_wallet_centrality
    by_cases hE : a.graph.edges = []
    · rw [if_pos hE]
    · rw [if_neg hE]
      unfold degreeCentrality
      rw [hout, hin]
      simp [hmem]
  have hbre : calculate_suspicion_breakdown a w = ⟨0, 0, 0, 0, 0, 0, -1⟩ := by
    unfold calculate_suspicion_breakdown
    rw [hout, hin, hdist]
    norm_num [edgeTimestamps]
  have hics : illicit_connection_score a w = 15/100 := by
    unfold illicit_connection_score
    rw [hdist]
    norm_num
  have hpat : analyze_transaction_patterns a w = 0 := by
    unfold analyze_transaction_patterns
    rw [hout, hin]
    norm_num
  have hscore : calculate_suspicion_score bw pr a w = 3/40 := by
    unfold calculate_suspicion_score centrality_composite
    rw [hics, hcent, hpat]
    norm_num
  have hsucc : a.graph.succs w = [] := by
    unfold Graph.succs
    rw [hout]
    rfl
  have hpaths : ∀ t c, allSimplePaths a.graph w t c = [] := by
    intro t c
    unfold allSimplePaths
    cases c with
    | zero => rfl
    | succ f =>
      unfold simplePathsAux
      rw [hsucc]
      rfl
  have hdirect : directSmurfRecords a w = [] := by
    unfold directSmurfRecords
    rw [hin, hout]
    norm_num
  have hmulti0 : multiHopRecords a w dep mi = [] := by
    unfold multiHopRecords
    refine List.flatMap_eq_nil_iff.mpr ?_
    intro t _
    split
    · rfl
    · rw [hpaths]
      rfl
  have hfan : detect_fan_out_fan_in a w dep mi = [] := by
    unfold detect_fan_out_fan_in
    rw [hdirect, hmulti0]
    rfl
  refine ⟨hcent, hbre, hscore, hfan, ?_, ?_, ?_⟩
  · unfold get_wallet_summary
    rw [if_neg hmem]
  · unfold classify_laundering_pattern
    rw [if_neg hmem]
  · unfold detect_peeling_chain
    rw [if_neg hmem]

theorem claim_C1_witness :
    ("Z" ∉ analyzerC10.graph.nodeList ∧ "Z" ∉ analyzerC10.illicit_wallets) ∧
    (calculate_wallet_centrality zeroLib zeroLib analyzerC10 "Z" = ⟨0, 0, 0, 0⟩ ∧
      calculate_suspicion_breakdown analyzerC10 "Z" = ⟨0, 0, 0, 0, 0, 0, -1⟩ ∧
      calculate_suspicion_score zeroLib zeroLib analyzerC10 "Z" = 3/40 ∧
      detect_fan_out_fan_in analyzerC10 "Z" 3 3 = [] ∧
      get_wallet_summary zeroLib zeroLib analyzerC10 "Z" = none ∧
      classify_laundering_pattern analyzerC10 "Z" = none ∧
      detect_peeling_chain analyzerC10 "Z" 5 = none) :=
  ⟨⟨by decide, by decide⟩,
    claim_C1_amended zeroLib zeroLib analyzerC10 "Z" 3 3 5 (by decide) (by decide)⟩

/-- One aggregate edge with a single transaction (helper for concrete
graphs). -/
def e1 (src dst : String) (amt : ℚ) (t : ℕ) : String × String × EdgeData :=
  (src, dst, ⟨[⟨amt, t, "UNKNOWN"⟩], amt, 1⟩)

/-- The six-node chain of C9: A→B→C→D→E→F with amounts 100, 94, 88, 82, 76
(the graph `load_transactions` builds from those five records). -/
def analyzerC9 : Analyzer :=
  ⟨⟨[e1 "A" "B" 100 0, e1 "B" "C" 94 0, e1 "C" "D" 88 0,
     e1 "D" "E" 82 0, e1 "E" "F" 76 0]⟩, []⟩

set_option maxHeartbeats 2000000 in
set_option maxRecDepth 8000 in
/-- C9: on the chain A→B→C→D→E→F with amounts [100, 94, 88, 82, 76],
`detect_peeling_chain(A, min_hops=5)` detects peeling — two chains, the
full one scoring 0.5 and the five-node prefix scoring 0.3, both positive —
and the amounts pass the `_is_peeling_pattern` 70-percent decreasing test. -/
theorem claim_C9 :
    detect_peeling_chain analyzerC9 "A" 5 =
      some [⟨"A", ["A", "B", "C", "D", "E", "F"], [100, 94, 88, 82, 76], 364, 1/2⟩,
            ⟨"A", ["A", "B", "C", "D", "E"], [100, 94, 88, 82], 282, 3/10⟩] ∧
    ((detect_peeling_chain analyzerC9 "A" 5).getD []).any
      (fun c => decide (0 < c.suspicion_score)) = true ∧
    is_peeling_pattern [100, 94, 88, 82, 76] = true := by
  have hrun : peelBfs analyzerC9.graph "A" 5 20 [("A", ["A"], [])] [] [] =
      ([⟨"A", ["A", "B", "C", "D", "E"], [100, 94, 88, 82], 282, 3/10⟩,
        ⟨"A", ["A", "B", "C", "D", "E", "F"], [100, 94, 88, 82, 76], 364, 1/2⟩], true) := by
    simp +decide [peelBfs, analyzerC9, e1, Graph.succs, Graph.outEdges, Graph.edgeTotal,
      Graph.edgeData, findEdgeData, addNode, is_peeling_pattern, calculate_peeling_score,
      totalPeeled]
    norm_num
  have hfuel : (20 : ℕ) ≤ peelFuel analyzerC9.graph := by decide
  have heq := peelBfs_fuel_irrelevant analyzerC9.graph "A" 5 20
      (peelFuel analyzerC9.graph) [("A", ["A"], [])] [] [] hfuel (by rw [hrun])
  have hdet : detect_peeling_chain analyzerC9 "A" 5 =
      some [⟨"A", ["A", "B", "C", "D", "E", "F"], [100, 94, 88, 82, 76], 364, 1/2⟩,
            ⟨"A", ["A", "B", "C", "D", "E"], [100, 94, 88, 82], 282, 3/10⟩] := by
    unfold detect_peeling_chain
    rw [if_pos (by decide), heq, hrun]
    norm_num [sortDescBy, insertDescBy]
  refine ⟨hdet, ?_, by norm_num [is_peeling_pattern]⟩
  rw [hdet]
  norm_num


/-- C4 counterexample graph: two paths from S share the node M.  The first
branch S→A→M has a non-peeling amount profile (50 then 94), the second
S→B→M→C→D→E carries the peeling profile [100, 94, 88, 82, 76]. -/
def analyzerC4 : Analyzer :=
  ⟨⟨[e1 "S" "A" 50 0, e1 "S" "B" 100 0, e1 "A" "M" 94 0, e1 "B" "M" 94 0,
     e1 "M" "C" 88 0, e1 "C" "D" 82 0, e1 "D" "E" 76 0]⟩, []⟩

set_option maxHeartbeats 2000000 in
set_option maxRecDepth 8000 in
/-- C4 as frozen claims the BFS of `detect_peeling_chain` tracks visited
state per path, so both simple paths through a shared intermediate node are
examined.  In the code `visited` is global: the graph holds the qualifying
peeling path S→B→M→C→D→E (consecutive edges shown, amounts [100, 94, 88,
82, 76], which pass `_is_peeling_pattern`, at length 6 ≥ min_hops 5), yet
`detect_peeling_chain(S, 5)` returns no chains at all, because the branch
through M via B is pruned after the earlier branch via A visited M. -/
theorem claim_C4_counterexample :
    (["S", "B", "M", "C", "D", "E"].zip ["B", "M", "C", "D", "E"]).all
      (fun p => analyzerC4.graph.hasEdge p.1 p.2) = true ∧
    (["S", "B", "M", "C", "D", "E"].zip ["B", "M", "C", "D", "E"]).map
      (fun p => analyzerC4.graph.edgeTotal p.1 p.2) = [100, 94, 88, 82, 76] ∧
    is_peeling_pattern [100, 94, 88, 82, 76] = true ∧
    detect_peeling_chain analyzerC4 "S" 5 = some [] := by
  have hrun : peelBfs analyzerC4.graph "S" 5 20 [("S", ["S"], [])] [] [] =
      ([], true) := by
    simp +decide [peelBfs, analyzerC4, e1, Graph.succs, Graph.outEdges, Graph.edgeTotal,
      Graph.edgeData, findEdgeData, addNode, is_peeling_pattern, calculate_peeling_score,
      totalPeeled]
    norm_num
  have hfuel : (20 : ℕ) ≤ peelFuel analyzerC4.graph := by decide
  have heq := peelBfs_fuel_irrelevant analyzerC4.graph "S" 5 20
      (peelFuel analyzerC4.graph) [("S", ["S"], [])] [] [] hfuel (by rw [hrun])
  refine ⟨by decide, ?_, by norm_num [is_peeling_pattern], ?_⟩
  · simp +decide [analyzerC4, e1, Graph.edgeTotal, Graph.edgeData, findEdgeData]
  unfold detect_peeling_chain
  rw [if_pos (by decide), heq, hrun]
  rfl

/-- C4 amended: the BFS of `detect_peeling_chain` tracks visited state
GLOBALLY: a dequeued frame whose current node was already visited by any
earlier path (and whose own path is longer than one node) is discarded
outright — neither scored nor extended — so of several simple paths through
a shared intermediate node only the first to reach it is examined; the
per-path check only prevents cycles inside one path. -/
theorem claim_C4_amended (g : Graph) (w : String) (min_hops f : Nat)
    (cur : String) (path : List String) (amounts : List ℚ)
    (rest : List (String × List String × List ℚ)) (visited : List String)
    (acc : List PeelChain) (hv : cur ∈ visited) (hlen : 1 < path.length) :
    peelBfs g w min_hops (f + 1) ((cur, path, amounts) :: rest) visited acc =
      peelBfs g w min_hops f rest visited acc := by
  rw [peelBfs, if_pos ⟨hv, hlen⟩]

theorem claim_C4_witness :
    ("M" ∈ ["M", "S"] ∧ 1 < (["S", "B", "M"] : List String).length) ∧
    peelBfs analyzerC4.graph "S" 5 3 [("M", ["S", "B", "M"], [100, 94])] ["M", "S"] [] =
      peelBfs analyzerC4.graph "S" 5 2 [] ["M", "S"] [] :=
  ⟨⟨by decide, by decide⟩,
    claim_C4_amended analyzerC4.graph "S" 5 2 "M" ["S", "B", "M"] [100, 94] []
      ["M", "S"] [] (by decide) (by decide)⟩

theorem insertDescBy_perm {α : Type} (key : α → ℚ) (x : α) (l : List α) :
    (insertDescBy key x l).Perm (x :: l) := by
  induction l with
  | nil => exact List.Perm.refl _
  | cons y ys ih =>
    unfold insertDescBy
    split
    · exact List.Perm.refl _
    · exact (ih.cons y).trans (List.Perm.swap x y ys)

theorem sortDescBy_perm {α : Type} (key : α → ℚ) (l : List α) :
    (sortDescBy key l).Perm l := by
  suffices h : ∀ (l acc : List α),
      (l.foldl (fun acc x => insertDescBy key x acc) acc).Perm (acc ++ l) by
    simpa using h l []
  intro l
  induction l with
  | nil => intro acc; simp
  | cons x xs ih =>
    intro acc
    simp only [List.foldl_cons]
    refine (ih _).trans ?_
    refine ((insertDescBy_perm key x acc).append_right xs).trans ?_
    exact List.perm_middle.symm

theorem directSmurfRecords_of_shortcut (a : Analyzer) (w : String)
    (h1 : 0 < (a.graph.inEdges w).length) (h2 : 5 ≤ (a.graph.outEdges w).length)
    (h3 : illicitInEdges a w ≠ []) :
    (directSmurfRecords a w).length = 1 ∧
    ∀ r ∈ directSmurfRecords a w,
      r.pattern_type = "direct_smurfing_from_illicit" ∧
      r.suspicion_score =
        (if 10 < (a.graph.outEdges w).length then 95/100 else 9/10) ∧
      r.destinations = (a.graph.outEdges w).map (fun e => e.2.1) := by
  unfold directSmurfRecords
  dsimp only
  rw [if_pos (show 0 < (a.graph.inEdges w).length ∧ 5 ≤ (a.graph.outEdges w).length
    from ⟨h1, h2⟩)]
  rcases hI : illicitInEdges a w with _ | ⟨ie, ies⟩
  · exact absurd hI h3
  · constructor
    · rfl
    · intro r hr
      have hre := List.mem_singleton.mp hr
      subst hre
      exact ⟨rfl, rfl, rfl⟩

theorem multiHopRecords_type (a : Analyzer) (w : String) (dep mi : Nat) :
    ∀ r ∈ multiHopRecords a w dep mi, r.pattern_type = "multi_hop_smurfing" := by
  intro r hr
  unfold multiHopRecords at hr
  obtain ⟨t, _, hmem⟩ := List.mem_flatMap.mp hr
  split at hmem
  · simp at hmem
  · obtain ⟨path, _, heq⟩ := List.mem_filterMap.mp hmem
    dsimp only at heq
    split at heq
    · simp at heq
    · split at heq
      · split at heq
        · rw [Option.some.injEq] at heq
          subst heq
          rfl
        · simp at heq
      · simp at heq

/-- C3 amended: under the shortcut conditions (some inbound edge from an
illicit wallet and out-degree at least 5), `detect_fan_out_fan_in` emits
exactly one `direct_smurfing_from_illicit` record, with score 0.9 (0.95
when the out-degree exceeds 10) covering all destinations — but the general
simple-path enumeration is NOT bypassed: it still runs and can add
`multi_hop_smurfing` records for the same wallet (see the
counterexample). -/
theorem claim_C3_amended (a : Analyzer) (w : String) (dep mi : Nat)
    (h1 : 0 < (a.graph.inEdges w).length) (h2 : 5 ≤ (a.graph.outEdges w).length)
    (h3 : illicitInEdges a w ≠ []) :
    (detect_fan_out_fan_in a w dep mi).countP
      (fun r => r.pattern_type = "direct_smurfing_from_illicit") = 1 ∧
    ∀ r ∈ detect_fan_out_fan_in a w dep mi,
      r.pattern_type = "direct_smurfing_from_illicit" →
        r.suspicion_score =
          (if 10 < (a.graph.outEdges w).length then 95/100 else 9/10) ∧
        r.destinations = (a.graph.outEdges w).map (fun e => e.2.1) := by
  obtain ⟨hlen, hprops⟩ := directSmurfRecords_of_shortcut a w h1 h2 h3
  have hperm := sortDescBy_perm SmurfRecord.suspicion_score
    (directSmurfRecords a w ++ multiHopRecords a w dep mi)
  constructor
  · unfold detect_fan_out_fan_in
    rw [hperm.countP_eq, List.countP_append]
    have hd1 : (directSmurfRecords a w).countP
        (fun r => r.pattern_type = "direct_smurfing_from_illicit")
        = (directSmurfRecords a w).length :=
      List.countP_eq_length.mpr (fun r hr => by simp [(hprops r hr).1])
    have hm0 : (multiHopRecords a w dep mi).countP
        (fun r => r.pattern_type = "direct_smurfing_from_illicit") = 0 :=
      List.countP_eq_zero.mpr (fun r hr => by
        simp [multiHopRecords_type a w dep mi r hr])
    rw [hd1, hm0, hlen]
  · intro r hr htype
    unfold detect_fan_out_fan_in at hr
    rcases List.mem_append.mp (hperm.mem_iff.mp hr) with hd | hg
    · exact ⟨(hprops r hd).2.1, (hprops r hd).2.2⟩
    · have hmh := multiHopRecords_type a w dep mi r hg
      rw [hmh] at htype
      exact absurd htype (by decide)

/-- C3 counterexample graph: illicit X feeds W, which fans out to five
destinations (D1–D4 and P1), and P1 continues into a high-value chain
P1→P2→P3→P4, giving a qualifying multi-hop path W→P1→P2→P3→P4. -/
def analyzerC3 : Analyzer :=
  ⟨⟨[e1 "X" "W" 50 0, e1 "W" "D1" 1 0, e1 "W" "D2" 2 0, e1 "W" "D3" 4 0,
     e1 "W" "D4" 8 0, e1 "W" "P1" 20000 0, e1 "P1" "P2" 20000 0,
     e1 "P2" "P3" 20000 0, e1 "P3" "P4" 20000 0]⟩, ["X"]⟩

set_option maxHeartbeats 4000000 in
set_option maxRecDepth 8000 in
/-- C3 as frozen claims the shortcut bypasses the general enumeration, so
no `multi_hop_smurfing` result is produced for the wallet.  Wallet W meets
the shortcut conditions (inbound from illicit X, out-degree 5), yet
`detect_fan_out_fan_in(W, max_depth=4, min_intermediaries=3)` returns the
direct record (0.9) AND a `multi_hop_smurfing` record (0.8) for the path
W→P1→P2→P3→P4. -/
theorem claim_C3_counterexample :
    (0 < (analyzerC3.graph.inEdges "W").length ∧
      5 ≤ (analyzerC3.graph.outEdges "W").length ∧
      illicitInEdges analyzerC3 "W" ≠ []) ∧
    (detect_fan_out_fan_in analyzerC3 "W" 4 3).map
      (fun r => (r.pattern_type, r.suspicion_score)) =
      [("direct_smurfing_from_illicit", 9/10), ("multi_hop_smurfing", 4/5)] := by
  refine ⟨⟨by decide, by decide, by decide⟩, ?_⟩
  simp +decide [detect_fan_out_fan_in, directSmurfRecords, multiHopRecords, analyzerC3,
    e1, illicitInEdges, Graph.inEdges, Graph.outEdges, Graph.nodeList, addNode,
    allSimplePaths, simplePathsAux, Graph.succs, analyze_pattern, Graph.edgeTotal,
    Graph.edgeData, findEdgeData, edgeTimestamps, listMax, listMin, sortDescBy,
    insertDescBy]
  try norm_num [List.filterMap_cons, List.filterMap_nil, sortDescBy, insertDescBy]
  try simp +decide [sortDescBy, insertDescBy]
  try norm_num [sortDescBy, insertDescBy]

theorem claim_C3_witness :
    (0 < (analyzerC3.graph.inEdges "W").length ∧
      5 ≤ (analyzerC3.graph.outEdges "W").length ∧
      illicitInEdges analyzerC3 "W" ≠ []) ∧
    ((detect_fan_out_fan_in analyzerC3 "W" 4 3).countP
        (fun r => r.pattern_type = "direct_smurfing_from_illicit") = 1 ∧
      ∀ r ∈ detect_fan_out_fan_in analyzerC3 "W" 4 3,
        r.pattern_type = "direct_smurfing_from_illicit" →
          r.suspicion_score =
            (if 10 < (analyzerC3.graph.outEdges "W").length then 95/100 else 9/10) ∧
          r.destinations = (analyzerC3.graph.outEdges "W").map (fun e => e.2.1)) :=
  ⟨⟨by decide, by decide, by decide⟩,
    claim_C3_amended analyzerC3 "W" 4 3 (by decide) (by decide) (by decide)⟩

/-- C6 concrete graph: wallet W receives from illicit X (fan detector
0.5 + 0.3 = 0.8), fans out to ten destinations with widely spread amounts
(no structuring bonus), and D1 heads a five-hop single-successor chain
(peeling detector 0.6); the timestamps spread over 48 hours with irregular
gaps and daytime hours, so the temporal detector scores 0; there are no
cycles. -/
def analyzerC6 : Analyzer :=
  ⟨⟨[e1 "X" "W" 50 43200,
     e1 "W" "D1" 1 46800, e1 "W" "D2" 2 54000, e1 "W" "D3" 4 57600,
     e1 "W" "D4" 8 72000, e1 "W" "D5" 16 90000, e1 "W" "D6" 32 100800,
     e1 "W" "D7" 64 115200, e1 "W" "D8" 128 126000, e1 "W" "D9" 256 129600,
     e1 "W" "D10" 512 216000,
     e1 "D1" "E1" 5 0, e1 "E1" "E2" 4 0, e1 "E2" "E3" 3 0, e1 "E3" "E4" 2 0,
     e1 "E4" "E5" 1 0]⟩, ["X"]⟩

set_option maxHeartbeats 4000000 in
set_option maxRecDepth 8000 in
/-- C6: for every wallet in the graph the classifier equals the spec's
merge of the four detector results (retain above 0.3; none →
NORMAL_ACTIVITY 0; second above 0.5 → MIXED_STRATEGY with blended
confidence, concatenated subtype, both evidence lists, both components;
otherwise the top result unmodified); in particular detector confidences
0.8 (fan-out/fan-in) and 0.6 (peeling) yield MIXED_STRATEGY with
confidence min(0.8 + 0.6·0.3, 1) = 0.98. -/
theorem claim_C6 :
    (∀ (a : Analyzer) (w : String), w ∈ a.graph.nodeList →
      classify_laundering_pattern a w = some (classifySpecMerge
        [detect_fan_out_fan_in_pattern a w, detect_peeling_pattern a w,
         detect_cyclic_pattern a w, detect_temporal_layering a w])) ∧
    classify_laundering_pattern analyzerC6 "W" = some
      ⟨"MIXED_STRATEGY", 49/50, "FAN_OUT_FAN_IN_PEELING_CHAIN",
        ["High fan-out", "Direct connection to illicit wallet(s)",
         "Long transaction chain"],
        [⟨"FAN_OUT_FAN_IN", 4/5, "SIMPLE_FAN_OUT",
           ["High fan-out", "Direct connection to illicit wallet(s)"]⟩,
         ⟨"PEELING_CHAIN", 3/5, "SEQUENTIAL_PEELING",
           ["Long transaction chain"]⟩]⟩ := by
  constructor
  · intro a w hmem
    unfold classify_laundering_pattern classifySpecMerge
    rw [if_pos hmem]
    dsimp only
    have hl : (if (detect_fan_out_fan_in_pattern a w).confidence > 3/10
          then [detect_fan_out_fan_in_pattern a w] else []) ++
        (if (detect_peeling_pattern a w).confidence > 3/10
          then [detect_peeling_pattern a w] else []) ++
        (if (detect_cyclic_pattern a w).confidence > 3/10
          then [detect_cyclic_pattern a w] else []) ++
        (if (detect_temporal_layering a w).confidence > 3/10
          then [detect_temporal_layering a w] else []) =
        List.filter (fun p => p.confidence > 3/10)
          [detect_fan_out_fan_in_pattern a w, detect_peeling_pattern a w,
           detect_cyclic_pattern a w, detect_temporal_layering a w] := by
      by_cases h1 : (detect_fan_out_fan_in_pattern a w).confidence > 3/10 <;>
        by_cases h2 : (detect_peeling_pattern a w).confidence > 3/10 <;>
        by_cases h3 : (detect_cyclic_pattern a w).confidence > 3/10 <;>
        by_cases h4 : (detect_temporal_layering a w).confidence > 3/10 <;>
        simp [List.filter_cons, List.filter_nil, h1, h2, h3, h4]
    rw [hl]
  · simp +decide [classify_laundering_pattern, analyzerC6, e1,
      detect_fan_out_fan_in_pattern, detect_peeling_pattern, detect_cyclic_pattern,
      detect_temporal_layering, illicitInEdges, Graph.inEdges, Graph.outEdges,
      Graph.nodeList, addNode, Graph.succs, Graph.preds, findChainLengthAux,
      strictlyDecreasing10, edgeTimestamps, listMax, listMin, sortAsc, insertAsc,
      sortDescBy, insertDescBy, PatternResult.lift]
    try norm_num [List.filter_cons, List.filter_nil, abs_lt, min_def, sortDescBy,
      insertDescBy, PatternResult.lift, listMax, listMin]
    try simp +decide [min_def, sortDescBy, insertDescBy, PatternResult.lift]
    try norm_num [List.filter_cons, List.filter_nil, abs_lt, min_def, sortDescBy,
      insertDescBy, PatternResult.lift]

theorem claim_C6_witness :
    "W" ∈ analyzerC6.graph.nodeList ∧
    classify_laundering_pattern analyzerC6 "W" = some (classifySpecMerge
      [detect_fan_out_fan_in_pattern analyzerC6 "W",
       detect_peeling_pattern analyzerC6 "W",
       detect_cyclic_pattern analyzerC6 "W",
       detect_temporal_layering analyzerC6 "W"]) :=
  ⟨by decide, claim_C6.1 analyzerC6 "W" (by decide)⟩
